/-
Verification of the ticket-analytics aggregation route of the
A-S-Sistema-de-Tickets repository.

The route handler (`GET` and the seven aggregation functions
`getSummary`, `getResolutionRate`, `getMonthlySummary`, `getByCategory`,
`getTechnicianPerformance`, `getCompanySummary`, `getRecentTickets`) is
shallowly embedded below.  The external Prisma store is modelled as an
in-memory snapshot (`Store`) together with a per-query failure oracle
(`DbEnv.fails`): the n-th store query of a request fails iff `fails n`,
which models connectivity/query errors thrown by the ORM and caught by
each function's try/catch.  JavaScript numbers are modelled by `ℚ`
(NaN/Infinity by the `JVal.jnull` they serialize to, since
`JSON.stringify` turns non-finite numbers into `null`), and JS `Date`
values by their UTC broken-down form (`DateTime`).
-/
import Mathlib

namespace TicketAnalytics

/-- A JSON value, as produced by `JSON.stringify` on the route's
response bodies.  Non-finite numbers serialize to `jnull`. -/
inductive JVal where
  | jnull : JVal
  | jbool : Bool → JVal
  | num : ℚ → JVal
  | str : String → JVal
  | arr : List JVal → JVal
  | obj : List (String × JVal) → JVal

/-- The field names of a JSON object (empty for non-objects). -/
def JVal.keys : JVal → List String
  | .obj fs => fs.map Prod.fst
  | _ => []

/-- An HTTP response: status code and JSON body
(every response of the handler sets Content-Type: application/json). -/
structure Response where
  status : Nat
  body : JVal

/-- `{ message: m }` — the error-body shape used by every error branch. -/
def msgObj (m : String) : JVal := .obj [("message", .str m)]

/-- Modelled from the spec: the Prisma `Status` enum (schema not under
src/).  The spec fixes a closed status set containing at least `Open`
and `Closed`; other statuses may exist, so a third member is included. -/
inductive Status where
  | Open : Status
  | Closed : Status
  | InProgress : Status
deriving DecidableEq, Repr

/-- Serialization of a status value (Prisma enums are strings in JSON). -/
def Status.toStr : Status → String
  | .Open => "Open"
  | .Closed => "Closed"
  | .InProgress => "InProgress"

/-- A JS `Date` in UTC broken-down form: year, month (1–12), day of
month, and milliseconds within the day.  `toISOString` reads these
fields back out in UTC, so grouping by `toISOString().slice(0, 7)` is
grouping by the (year, month) projection of this structure. -/
structure DateTime where
  year : Nat
  month : Nat
  day : Nat
  timeMs : Nat
deriving DecidableEq, Repr

/-- Bool-valued chronological order on `DateTime` (lexicographic). -/
def DateTime.leb (a b : DateTime) : Bool :=
  (a.year < b.year) ||
    (a.year = b.year && ((a.month < b.month) ||
      (a.month = b.month && ((a.day < b.day) ||
        (a.day = b.day && (a.timeMs ≤ b.timeMs))))))

theorem DateTime.leb_trans (a b c : DateTime) (h1 : a.leb b) (h2 : b.leb c) :
    a.leb c := by
  simp only [DateTime.leb, Bool.or_eq_true, Bool.and_eq_true,
    decide_eq_true_eq] at h1 h2 ⊢
  omega

theorem DateTime.leb_total (a b : DateTime) : a.leb b || b.leb a := by
  simp only [DateTime.leb, Bool.or_eq_true, Bool.and_eq_true,
    decide_eq_true_eq]
  omega

/-- The digit character for `n % 10`. -/
def digitChar10 (n : Nat) : Char := Char.ofNat (48 + n % 10)

/-- Two-digit zero-padded decimal, as `toISOString` prints months,
days, hours, minutes and seconds. -/
def pad2 (n : Nat) : String := ⟨[digitChar10 (n / 10), digitChar10 n]⟩

/-- Three-digit zero-padded decimal (milliseconds). -/
def pad3 (n : Nat) : String :=
  ⟨[digitChar10 (n / 100), digitChar10 (n / 10), digitChar10 n]⟩

/-- Four-digit zero-padded decimal (years). -/
def pad4 (n : Nat) : String :=
  ⟨[digitChar10 (n / 1000), digitChar10 (n / 100), digitChar10 (n / 10),
    digitChar10 n]⟩

/-- `Date.prototype.toISOString` (UTC): `YYYY-MM-DDTHH:mm:ss.sssZ`. -/
def DateTime.toIso (t : DateTime) : String :=
  pad4 t.year ++ "-" ++ pad2 t.month ++ "-" ++ pad2 t.day ++ "T" ++
    pad2 (t.timeMs / 3600000) ++ ":" ++ pad2 (t.timeMs % 3600000 / 60000) ++
    ":" ++ pad2 (t.timeMs % 60000 / 1000) ++ "." ++ pad3 (t.timeMs % 1000) ++ "Z"

/-- `item.createdAt.toISOString().slice(0, 7)` — the `YYYY-MM` month
key used by `getMonthlySummary`.  JS `slice` counts UTF-16 units; the
ISO string is ASCII, so it takes the first seven characters. -/
def monthKey (t : DateTime) : String := ⟨t.toIso.data.take 7⟩

/-- Modelled from the spec: the Prisma `Ticket` model (schema not under
src/); fields as listed in the spec's data model — identifier, title,
description, status, type, priority, creation/update timestamps,
nullable assignee `userId`, required `clientId`.  The raw `type` enum
is modelled by its string value. -/
structure Ticket where
  id : Nat
  title : String
  description : String
  status : Status
  type : String
  priority : String
  createdAt : DateTime
  updatedAt : DateTime
  userId : Option Nat
  clientId : Nat
deriving DecidableEq, Repr

/-- Modelled from the spec: the Prisma `Person` model (schema not under
src/) — identifier, first/last name, email, phone. -/
structure Person where
  id : Nat
  firstName : String
  lastName : String
  email : String
  phone : String
deriving DecidableEq, Repr

/-- A snapshot of the relational store at request time. -/
structure Store where
  tickets : List Ticket
  persons : List Person
deriving Repr

/-- The store together with a failure oracle: the n-th query issued
while handling a request throws iff `fails n`. -/
structure DbEnv where
  store : Store
  fails : Nat → Bool

/-- The always-healthy failure oracle. -/
def noFail : Nat → Bool := fun _ => false

/-- The always-throwing failure oracle. -/
def allFail : Nat → Bool := fun _ => true

/-- The store-query monad: given the environment and the index of the
next query, either throw (`none`) or produce a value; the query counter
is returned in both cases. -/
def DbM (α : Type) : Type := DbEnv → Nat → Option α × Nat

namespace DbM

def pure' (a : α) : DbM α := fun _ n => (some a, n)

def bind' (x : DbM α) (f : α → DbM β) : DbM β := fun env n =>
  match x env n with
  | (none, n') => (none, n')
  | (some a, n') => f a env n'

instance : Monad DbM where
  pure := pure'
  bind := bind'

end DbM

/-- One `await prisma...` store query: evaluates `q` on the snapshot,
or throws according to the failure oracle. -/
def query (q : Store → α) : DbM α := fun env n =>
  if env.fails n then (none, n + 1) else (some (q env.store), n + 1)

/-- `prisma.person.findUnique({ where: { id } })`. -/
def findPerson (s : Store) (i : Nat) : Option Person :=
  s.persons.find? (fun p => p.id = i)

/-- `prisma.ticket.count()`. -/
def countAllTickets (s : Store) : Nat := s.tickets.length

/-- `prisma.ticket.count({ where: { status } })`. -/
def countByStatus (s : Store) (st : Status) : Nat :=
  (s.tickets.filter (fun t => t.status = st)).length

/-- `prisma.ticket.count({ where: { userId, status } })`. -/
def countTech (s : Store) (u : Nat) (st : Status) : Nat :=
  (s.tickets.filter (fun t => t.userId = some u ∧ t.status = st)).length

/-- `prisma.ticket.count({ where: { clientId, status } })`. -/
def countClient (s : Store) (c : Nat) (st : Status) : Nat :=
  (s.tickets.filter (fun t => t.clientId = c ∧ t.status = st)).length

/-- `prisma.ticket.findMany({ orderBy: { createdAt: "desc" }, take: 5 })`:
sort descending by creation timestamp and keep the first five rows. -/
def recentFive (s : Store) : List Ticket :=
  (s.tickets.mergeSort (fun a b => DateTime.leb b.createdAt a.createdAt)).take 5

/-- JSON serialization of a full ticket row, as `JSON.stringify` emits
it (Prisma `Date` fields serialize to their ISO string, enums to their
string value, a null `userId` to `null`). -/
def ticketToJ (t : Ticket) : JVal :=
  .obj [("id", .num t.id), ("title", .str t.title),
    ("description", .str t.description), ("status", .str t.status.toStr),
    ("type", .str t.type), ("priority", .str t.priority),
    ("createdAt", .str t.createdAt.toIso), ("updatedAt", .str t.updatedAt.toIso),
    ("userId", match t.userId with | none => .jnull | some u => .num u),
    ("clientId", .num t.clientId)]

/-- `getRecentTickets`: one `findMany` query. -/
def getRecentTicketsM : DbM (List Ticket) := query recentFive

/-- `getRecentTickets` — the 5 most recent tickets, with its
try/catch boundary.  The second component counts store queries made. -/
def getRecentTickets (env : DbEnv) : Response × Nat :=
  match getRecentTicketsM env 0 with
  | (some ts, n) => (⟨200, .arr (ts.map ticketToJ)⟩, n)
  | (none, n) =>
    (⟨500, msgObj "Hubo un error al obtener los tickets recientes"⟩, n)

/-- `getSummary`'s three sequential count queries. -/
def getSummaryM : DbM (Nat × Nat × Nat) := do
  let totalTickets ← query countAllTickets
  let pendingTickets ← query (fun s => countByStatus s Status.Open)
  let completedTickets ← query (fun s => countByStatus s Status.Closed)
  pure (totalTickets, pendingTickets, completedTickets)

/-- `{ totalTickets, pendingTickets, completedTickets }`. -/
def summaryJ (total pending completed : Nat) : JVal :=
  .obj [("totalTickets", .num total), ("pendingTickets", .num pending),
    ("completedTickets", .num completed)]

/-- `getSummary` with its try/catch boundary. -/
def getSummary (env : DbEnv) : Response × Nat :=
  match getSummaryM env 0 with
  | (some (t, p, c), n) => (⟨200, summaryJ t p c⟩, n)
  | (none, n) =>
    (⟨500, msgObj "Hubo un error al obtener el resumen de tickets"⟩, n)

/-- The JSON value of `(completedTickets / totalTickets) * 100` under
JS arithmetic: for `total = 0` the division produces NaN (or Infinity),
which `JSON.stringify` serializes as `null`; otherwise the finite
quotient, modelled exactly in `ℚ`. -/
def resolutionRateJ (completed total : Nat) : JVal :=
  if total = 0 then .jnull else .num ((completed : ℚ) / (total : ℚ) * 100)

/-- `getResolutionRate`'s two sequential count queries. -/
def getResolutionRateM : DbM (Nat × Nat) := do
  let totalTickets ← query countAllTickets
  let completedTickets ← query (fun s => countByStatus s Status.Closed)
  pure (totalTickets, completedTickets)

/-- `getResolutionRate` with its try/catch boundary. -/
def getResolutionRate (env : DbEnv) : Response × Nat :=
  match getResolutionRateM env 0 with
  | (some (t, c), n) => (⟨200, .obj [("resolutionRate", resolutionRateJ c t)]⟩, n)
  | (none, n) =>
    (⟨500, msgObj "Hubo un error al obtener la tasa de resolución"⟩, n)

/-- `prisma.ticket.groupBy({ by: ["createdAt"], _count: { _all }, orderBy:
{ createdAt: "asc" } })`: one row per distinct creation timestamp, counted,
ordered ascending. -/
def dateGroupRows (s : Store) : List (DateTime × Nat) :=
  ((s.tickets.map (fun t => t.createdAt)).dedup.mergeSort DateTime.leb).map
    (fun d => (d, (s.tickets.filter (fun t => t.createdAt = d)).length))

/-- A `{ month, tickets }` bucket of the monthly summary. -/
structure MonthEntry where
  month : String
  tickets : Nat
deriving DecidableEq, Repr

/-- One step of the reducer: `if (!acc[month]) acc[month] = { month,
tickets: 0 }; acc[month].tickets += count` — JS objects keyed by a
non-numeric string keep insertion order, so the accumulator is a list
of entries with distinct months, new months appended at the end. -/
def addMonth (acc : List MonthEntry) (m : String) (c : Nat) : List MonthEntry :=
  if acc.any (fun e => e.month = m) then
    acc.map (fun e => if e.month = m then ⟨e.month, e.tickets + c⟩ else e)
  else acc ++ [⟨m, c⟩]

/-- The reduce over the groupBy rows, starting from the empty object. -/
def monthlyFold (rows : List (DateTime × Nat)) : List MonthEntry :=
  rows.foldl (fun acc r => addMonth acc (monthKey r.1) r.2) []

/-- Serialization of a monthly bucket. -/
def monthToJ (e : MonthEntry) : JVal :=
  .obj [("month", .str e.month), ("tickets", .num e.tickets)]

/-- `getMonthlySummary`: one groupBy query. -/
def getMonthlySummaryM : DbM (List (DateTime × Nat)) := query dateGroupRows

/-- `getMonthlySummary` with its try/catch boundary: groupBy rows
re-bucketed by month key, then `Object.values` serialized. -/
def getMonthlySummary (env : DbEnv) : Response × Nat :=
  match getMonthlySummaryM env 0 with
  | (some rows, n) => (⟨200, .arr ((monthlyFold rows).map monthToJ)⟩, n)
  | (none, n) =>
    (⟨500, msgObj "Hubo un error al obtener el resumen mensual de tickets"⟩, n)

/-- Modelled from the spec: a Metadata Catalog entry — the display
text, color and icon for one ticket type (the `ticketMetadata` module is
not under src/; the icon is modelled by an opaque string label). -/
structure MetaEntry where
  text : String
  color : String
  icon : String
deriving DecidableEq, Repr

/-- Modelled from the spec: the Metadata Catalog `ticketMetadata.type`,
a static object keyed by the raw type enum value. -/
abbrev Catalog := List (String × MetaEntry)

/-- `ticketMetadata.type[rawType]` — `none` models the `undefined` a JS
property access yields when the key is absent. -/
def lookupMeta (cat : Catalog) (ty : String) : Option MetaEntry :=
  (cat.find? (fun p => p.1 = ty)).map Prod.snd

/-- `prisma.ticket.groupBy({ by: ["type"], _count: { _all } })`. -/
def typeGroupRows (s : Store) : List (String × Nat) :=
  (s.tickets.map (fun t => t.type)).dedup.map
    (fun ty => (ty, (s.tickets.filter (fun t => t.type = ty)).length))

/-- The nested `_count` object of a groupBy row as serialized. -/
structure CountAll where
  _all : Nat
deriving DecidableEq, Repr

/-- One entry of the by-category result: `{ type: text, _count:
item._count, color, icon }` — note the source passes the raw `_count`
object through, it does not flatten it to a `count` field. -/
structure CategoryEntry where
  type : String
  _count : CountAll
  color : String
  icon : String
deriving DecidableEq, Repr

/-- Serialization of a by-category entry, with the source's field names. -/
def categoryToJ (e : CategoryEntry) : JVal :=
  .obj [("type", .str e.type), ("_count", .obj [("_all", .num e._count._all)]),
    ("color", .str e.color), ("icon", .str e.icon)]

/-- The `.map` over groupBy rows: a catalog miss makes the property
access `.text` on `undefined` throw, aborting the whole map (`none`). -/
def mapCategory (cat : Catalog) : List (String × Nat) → Option (List CategoryEntry)
  | [] => some []
  | r :: rs =>
    match lookupMeta cat r.1 with
    | none => none
    | some m =>
      match mapCategory cat rs with
      | none => none
      | some es => some (⟨m.text, ⟨r.2⟩, m.color, m.icon⟩ :: es)

/-- `getByCategory`: one groupBy query, then the catalog-decorating map
(which can itself throw inside the try block). -/
def getByCategoryM (cat : Catalog) : DbM (Option (List CategoryEntry)) := do
  let rows ← query typeGroupRows
  pure (mapCategory cat rows)

/-- `getByCategory` with its try/catch boundary. -/
def getByCategory (cat : Catalog) (env : DbEnv) : Response × Nat :=
  match getByCategoryM cat env 0 with
  | (some (some es), n) => (⟨200, .arr (es.map categoryToJ)⟩, n)
  | (some none, n) =>
    (⟨500, msgObj "Hubo un error al obtener el desglose por categoría"⟩, n)
  | (none, n) =>
    (⟨500, msgObj "Hubo un error al obtener el desglose por categoría"⟩, n)

/-- `prisma.ticket.groupBy({ by: ["userId"], _count: { _all } })` —
the key is the nullable assignee. -/
def userGroupRows (s : Store) : List (Option Nat × Nat) :=
  (s.tickets.map (fun t => t.userId)).dedup.map
    (fun u => (u, (s.tickets.filter (fun t => t.userId = u)).length))

/-- A `{ name, total, completed, pending }` technician group. -/
structure TechEntry where
  name : String
  total : Nat
  completed : Nat
  pending : Nat
deriving DecidableEq, Repr

/-- Serialization of a technician group. -/
def techToJ (e : TechEntry) : JVal :=
  .obj [("name", .str e.name), ("total", .num e.total),
    ("completed", .num e.completed), ("pending", .num e.pending)]

/-- The per-group body of `getTechnicianPerformance`'s `Promise.all`:
resolve the person (one query); a missing person short-circuits to
`null`, otherwise two scoped count queries build the group. -/
def techLoop : List (Nat × Nat) → DbM (List (Option TechEntry))
  | [] => pure []
  | r :: rs => do
    let user ← query (fun s => findPerson s r.1)
    match user with
    | none => do
      let rest ← techLoop rs
      pure (none :: rest)
    | some u => do
      let completedTickets ← query (fun s => countTech s r.1 Status.Closed)
      let pendingTickets ← query (fun s => countTech s r.1 Status.Open)
      let rest ← techLoop rs
      pure (some ⟨u.firstName ++ " " ++ u.lastName, r.2,
        completedTickets, pendingTickets⟩ :: rest)

/-- `getTechnicianPerformance`: groupBy by `userId`, drop the null
group, then the per-group resolution loop. -/
def getTechnicianPerformanceM : DbM (List (Option TechEntry)) := do
  let rows ← query userGroupRows
  techLoop (rows.filterMap
    (fun r => match r.1 with | none => none | some u => some (u, r.2)))

/-- `getTechnicianPerformance` with its try/catch boundary; the final
`result.filter(Boolean)` drops the `null` entries. -/
def getTechnicianPerformance (env : DbEnv) : Response × Nat :=
  match getTechnicianPerformanceM env 0 with
  | (some entries, n) => (⟨200, .arr ((entries.filterMap id).map techToJ)⟩, n)
  | (none, n) =>
    (⟨500, msgObj "Hubo un error al obtener el rendimiento de los técnicos"⟩, n)

/-- `prisma.ticket.groupBy({ by: ["clientId"], _count: { _all, status } })`. -/
def clientGroupRows (s : Store) : List (Nat × Nat) :=
  (s.tickets.map (fun t => t.clientId)).dedup.map
    (fun c => (c, (s.tickets.filter (fun t => t.clientId = c)).length))

/-- A `{ name, completed, pending }` company group. -/
structure CompanyEntry where
  name : String
  completed : Nat
  pending : Nat
deriving DecidableEq, Repr

/-- Serialization of a company group. -/
def companyToJ (e : CompanyEntry) : JVal :=
  .obj [("name", .str e.name), ("completed", .num e.completed),
    ("pending", .num e.pending)]

/-- The per-group body of `getCompanySummary`'s `Promise.all`: resolve
the person and both scoped counts; an unresolved client keeps the group
with name `"Unknown"`. -/
def companyLoop : List (Nat × Nat) → DbM (List CompanyEntry)
  | [] => pure []
  | r :: rs => do
    let client ← query (fun s => findPerson s r.1)
    let completedTickets ← query (fun s => countClient s r.1 Status.Closed)
    let pendingTickets ← query (fun s => countClient s r.1 Status.Open)
    let rest ← companyLoop rs
    pure (⟨(match client with
      | some c => c.firstName ++ " " ++ c.lastName
      | none => "Unknown"), completedTickets, pendingTickets⟩ :: rest)

/-- `getCompanySummary`: groupBy by `clientId`, then the loop. -/
def getCompanySummaryM : DbM (List CompanyEntry) := do
  let rows ← query clientGroupRows
  companyLoop rows

/-- `getCompanySummary` with its try/catch boundary. -/
def getCompanySummary (env : DbEnv) : Response × Nat :=
  match getCompanySummaryM env 0 with
  | (some entries, n) => (⟨200, .arr (entries.map companyToJ)⟩, n)
  | (none, n) =>
    (⟨500, msgObj "Hubo un error al obtener el resumen por empresa"⟩, n)

/-- The route handler `GET`: session check, then dispatch on the
`route` query parameter (`none` models an absent parameter).  The
session mechanism is external; `Option Unit` models its presence.  The
second component is the number of store queries made. -/
def GET (cat : Catalog) (session : Option Unit) (route : Option String)
    (env : DbEnv) : Response × Nat :=
  match session with
  | none => (⟨401, msgObj "Unauthorized"⟩, 0)
  | some _ =>
    match route with
    | some "summary" => getSummary env
    | some "resolution-rate" => getResolutionRate env
    | some "monthly-summary" => getMonthlySummary env
    | some "by-category" => getByCategory cat env
    | some "technician-performance" => getTechnicianPerformance env
    | some "company-summary" => getCompanySummary env
    | some "recent-tickets" => getRecentTickets env
    | _ => (⟨400, msgObj "Invalid route"⟩, 0)

/-- The seven recognized route selector values. -/
def routeNames : List String :=
  ["summary", "resolution-rate", "monthly-summary", "by-category",
   "technician-performance", "company-summary", "recent-tickets"]

/-- What one iteration of the technician loop produces for a group row
`(uid, total)` on a healthy store: `null` when the person is missing,
the `{ name, total, completed, pending }` group otherwise. -/
def techResolve (s : Store) (r : Nat × Nat) : Option TechEntry :=
  (findPerson s r.1).map (fun u =>
    ⟨u.firstName ++ " " ++ u.lastName, r.2,
      countTech s r.1 Status.Closed, countTech s r.1 Status.Open⟩)

/-- What one iteration of the company loop produces for a group row
`(clientId, total)` on a healthy store. -/
def companyResolve (s : Store) (r : Nat × Nat) : CompanyEntry :=
  ⟨(match findPerson s r.1 with
    | some c => c.firstName ++ " " ++ c.lastName
    | none => "Unknown"),
   countClient s r.1 Status.Closed, countClient s r.1 Status.Open⟩

/-- The non-null assignee group rows handed to the technician loop. -/
def techUidRows (s : Store) : List (Nat × Nat) :=
  (userGroupRows s).filterMap
    (fun r => match r.1 with | none => none | some u => some (u, r.2))

/-- The distinct non-null assignee ids whose Person record resolves —
per the spec these are exactly the technician groups that survive. -/
def resolvableUids (s : Store) : List Nat :=
  ((s.tickets.map (fun t => t.userId)).dedup.filterMap id).filter
    (fun u => (findPerson s u).isSome)

/-- The distinct client ids, in group order. -/
def distinctClientIds (s : Store) : List Nat :=
  (s.tickets.map (fun t => t.clientId)).dedup

/-- The distinct raw ticket types, in group order. -/
def distinctTypes (s : Store) : List String :=
  (s.tickets.map (fun t => t.type)).dedup

/-- Sum of the groupBy counts of the rows in a given month — what the
reducer accumulates for that month. -/
def sumFor (rows : List (DateTime × Nat)) (m : String) : Nat :=
  ((rows.filter (fun r => monthKey r.1 = m)).map Prod.snd).sum

/-- The accumulated ticket count an accumulator holds for a month. -/
def accTickets (acc : List MonthEntry) (m : String) : Nat :=
  ((acc.filter (fun e => e.month = m)).map (fun e => e.tickets)).sum

/-- The month keys of an accumulator, in insertion order. -/
def accMonths (acc : List MonthEntry) : List String :=
  acc.map (fun e => e.month)

/-- A sample creation timestamp (midnight UTC). -/
def mkDate (y m d : Nat) : DateTime := ⟨y, m, d, 0⟩

/-- A sample ticket used by concrete witnesses. -/
def mkTicket (i : Nat) (st : Status) (ty : String) (cr : DateTime)
    (u : Option Nat) (c : Nat) : Ticket :=
  ⟨i, "ticket", "desc", st, ty, "High", cr, cr, u, c⟩

/-- The empty store. -/
def emptyStore : Store := ⟨[], []⟩

/-- A two-ticket store (one Open, one Closed), same month. -/
def twoStore : Store :=
  ⟨[mkTicket 1 Status.Open "hw" (mkDate 2024 1 5) (some 10) 20,
    mkTicket 2 Status.Closed "hw" (mkDate 2024 1 20) (some 10) 20],
   [⟨10, "Ana", "Lopez", "a@x", "1"⟩, ⟨20, "Bob", "Mora", "b@x", "2"⟩]⟩

/-- A six-ticket store with distinct creation dates. -/
def sixStore : Store :=
  ⟨[mkTicket 1 Status.Open "hw" (mkDate 2024 1 1) none 20,
    mkTicket 2 Status.Open "hw" (mkDate 2024 1 2) none 20,
    mkTicket 3 Status.Open "hw" (mkDate 2024 1 3) none 20,
    mkTicket 4 Status.Open "hw" (mkDate 2024 1 4) none 20,
    mkTicket 5 Status.Open "hw" (mkDate 2024 1 5) none 20,
    mkTicket 6 Status.Open "hw" (mkDate 2024 1 6) none 20], []⟩

/-- A one-entry catalog. -/
def hwCatalog : Catalog := [("hw", ⟨"Hardware", "red", "cpu"⟩)]

/-- A one-ticket store whose type is in `hwCatalog`. -/
def hwStore : Store :=
  ⟨[mkTicket 1 Status.Open "hw" (mkDate 2024 1 5) none 20], []⟩

/-- A one-ticket store whose type is missing from `hwCatalog`. -/
def badTypeStore : Store :=
  ⟨[mkTicket 1 Status.Open "network" (mkDate 2024 1 5) none 20], []⟩

theorem DbM.pure_def (a : α) (env : DbEnv) (n : Nat) :
    (Pure.pure a : DbM α) env n = (some a, n) := rfl

theorem DbM.bind_def (x : DbM α) (f : α → DbM β) (env : DbEnv) (n : Nat) :
    (x >>= f) env n =
      match x env n with
      | (none, n') => (none, n')
      | (some a, n') => f a env n' := rfl

@[simp] theorem query_noFail (q : Store → α) (s : Store) (n : Nat) :
    query q ⟨s, noFail⟩ n = (some (q s), n + 1) := rfl

@[simp] theorem query_allFail (q : Store → α) (s : Store) (n : Nat) :
    query q ⟨s, allFail⟩ n = (none, n + 1) := rfl

theorem DateTime.leb_refl (a : DateTime) : a.leb a := by
  simp [DateTime.leb]

theorem getSummary_noFail (s : Store) : getSummary ⟨s, noFail⟩ =
    (⟨200, summaryJ (countAllTickets s) (countByStatus s Status.Open)
      (countByStatus s Status.Closed)⟩, 3) := rfl

theorem getResolutionRate_noFail (s : Store) : getResolutionRate ⟨s, noFail⟩ =
    (⟨200, .obj [("resolutionRate",
      resolutionRateJ (countByStatus s Status.Closed) (countAllTickets s))]⟩, 2) := rfl

theorem getRecentTickets_noFail (s : Store) : getRecentTickets ⟨s, noFail⟩ =
    (⟨200, .arr ((recentFive s).map ticketToJ)⟩, 1) := rfl

theorem getMonthlySummary_noFail (s : Store) : getMonthlySummary ⟨s, noFail⟩ =
    (⟨200, .arr ((monthlyFold (dateGroupRows s)).map monthToJ)⟩, 1) := rfl

/-- Two disjoint filters of a list together keep at most all of it. -/
theorem length_filter_two_disjoint_le (l : List α) (p q : α → Bool)
    (hpq : ∀ x ∈ l, ¬(p x = true ∧ q x = true)) :
    (l.filter p).length + (l.filter q).length ≤ l.length := by
  induction l with
  | nil => simp
  | cons a t ih =>
    have ht := ih (fun x hx => hpq x (List.mem_cons_of_mem a hx))
    by_cases hp : p a = true
    · by_cases hq : q a = true
      · exact absurd ⟨hp, hq⟩ (hpq a (List.mem_cons_self a t))
      · simp [List.filter_cons, hp, hq] <;> omega
    · by_cases hq : q a = true <;> simp [List.filter_cons, hp, hq] <;> omega

/-- C9 (confirmed): on a non-empty store the summary returns 200 with
`{ totalTickets, pendingTickets, completedTickets }` and
`pendingTickets + completedTickets ≤ totalTickets`, since pending
counts Open tickets only, completed counts Closed tickets only, and
`Open ≠ Closed` in the fixed status set. -/
theorem summary_pending_completed_le_total (s : Store) (hne : s.tickets ≠ []) :
    (getSummary ⟨s, noFail⟩).1 =
      ⟨200, summaryJ (countAllTickets s) (countByStatus s Status.Open)
        (countByStatus s Status.Closed)⟩ ∧
    countByStatus s Status.Open + countByStatus s Status.Closed ≤
      countAllTickets s := by
  refine ⟨rfl, ?_⟩
  have := hne
  unfold countByStatus countAllTickets
  apply length_filter_two_disjoint_le
  intro x _ hx
  rcases hx with ⟨h1, h2⟩
  simp only [decide_eq_true_eq] at h1 h2
  rw [h1] at h2
  exact Status.noConfusion h2

/-- C9 witness: the two-ticket store is non-empty and satisfies the
inequality. -/
theorem summary_pending_completed_le_total_witness :
    twoStore.tickets ≠ [] ∧
    countByStatus twoStore Status.Open + countByStatus twoStore Status.Closed ≤
      countAllTickets twoStore :=
  ⟨by decide, (summary_pending_completed_le_total twoStore (by decide)).2⟩

/-- C1 counterexample: on the empty store (`totalTickets = 0`) the
handler does not return a defined in-band value — the division yields
NaN, which `JSON.stringify` silently serializes as `null`, inside a
200 response. -/
theorem resolution_rate_zero_total_counterexample :
    getResolutionRate ⟨emptyStore, noFail⟩ =
      (⟨200, .obj [("resolutionRate", JVal.jnull)]⟩, 2) := rfl

/-- C1 (amended): the resolution-rate aggregation returns 200 whose
body is `{ resolutionRate }`; for `totalTickets = T > 0` the rate is
exactly `C / T * 100`, and for `T = 0` the rate is the silently
propagated non-finite division result, serialized as `null`. -/
theorem resolution_rate_formula (s : Store) :
    (getResolutionRate ⟨s, noFail⟩).1.status = 200 ∧
    (getResolutionRate ⟨s, noFail⟩).1.body =
      .obj [("resolutionRate",
        resolutionRateJ (countByStatus s Status.Closed) (countAllTickets s))] ∧
    (countAllTickets s ≠ 0 →
      resolutionRateJ (countByStatus s Status.Closed) (countAllTickets s) =
        .num ((countByStatus s Status.Closed : ℚ) / (countAllTickets s : ℚ) * 100)) ∧
    (countAllTickets s = 0 →
      resolutionRateJ (countByStatus s Status.Closed) (countAllTickets s) =
        JVal.jnull) := by
  refine ⟨rfl, rfl, fun h => ?_, fun h => ?_⟩
  · simp [resolutionRateJ, h]
  · simp [resolutionRateJ, h]

/-- C1 witness: on the two-ticket store (one Closed) the rate is
exactly 50. -/
theorem resolution_rate_formula_witness :
    countAllTickets twoStore ≠ 0 ∧
    (getResolutionRate ⟨twoStore, noFail⟩).1.body =
      .obj [("resolutionRate", .num 50)] := by
  refine ⟨by decide, ?_⟩
  have h := resolution_rate_formula twoStore
  rw [h.2.1, h.2.2.1 (by decide)]
  rw [show countByStatus twoStore Status.Closed = 1 from rfl,
    show countAllTickets twoStore = 2 from rfl]
  norm_num

/-- C7 (confirmed): the router returns
`401 { message: "Unauthorized" }` with zero store queries when no
session is present; with a session and an unrecognized (or absent)
route selector it returns `400 { message: "Invalid route" }` with zero
store queries; and each of the seven recognized selectors dispatches to
exactly the corresponding aggregation function. -/
theorem router_dispatch (cat : Catalog) (env : DbEnv) (u : Unit)
    (r : Option String) :
    GET cat none r env = (⟨401, msgObj "Unauthorized"⟩, 0) ∧
    (r ∉ routeNames.map Option.some →
      GET cat (some u) r env = (⟨400, msgObj "Invalid route"⟩, 0)) ∧
    GET cat (some u) (some "summary") env = getSummary env ∧
    GET cat (some u) (some "resolution-rate") env = getResolutionRate env ∧
    GET cat (some u) (some "monthly-summary") env = getMonthlySummary env ∧
    GET cat (some u) (some "by-category") env = getByCategory cat env ∧
    GET cat (some u) (some "technician-performance") env =
      getTechnicianPerformance env ∧
    GET cat (some u) (some "company-summary") env = getCompanySummary env ∧
    GET cat (some u) (some "recent-tickets") env = getRecentTickets env := by
  refine ⟨rfl, ?_, rfl, rfl, rfl, rfl, rfl, rfl, rfl⟩
  intro hr
  rcases r with _ | str
  · rfl
  · simp only [routeNames, List.map, List.mem_cons, List.not_mem_nil, or_false,
      not_or, Option.some.injEq] at hr
    unfold GET
    split <;> simp_all

/-- C7 witness: with a session but a selector outside the recognized
set, the router answers 400 with zero queries. -/
theorem router_dispatch_witness :
    GET hwCatalog (some ()) (some "bogus") ⟨emptyStore, noFail⟩ =
      (⟨400, msgObj "Invalid route"⟩, 0) :=
  (router_dispatch hwCatalog ⟨emptyStore, noFail⟩ () (some "bogus")).2.1
    (by decide)

/-- C8 (confirmed): every aggregation function either answers 200 or
answers exactly `500 { message: <its Spanish error string> }` — never a
partial body, never an uncaught failure — and when the store throws on
the very first query each function produces exactly its 500 body. -/
theorem aggregation_failure_boundary (cat : Catalog) (s : Store)
    (env : DbEnv) :
    ((getRecentTickets env).1.status = 200 ∨ (getRecentTickets env).1 =
      ⟨500, msgObj "Hubo un error al obtener los tickets recientes"⟩) ∧
    ((getSummary env).1.status = 200 ∨ (getSummary env).1 =
      ⟨500, msgObj "Hubo un error al obtener el resumen de tickets"⟩) ∧
    ((getResolutionRate env).1.status = 200 ∨ (getResolutionRate env).1 =
      ⟨500, msgObj "Hubo un error al obtener la tasa de resolución"⟩) ∧
    ((getMonthlySummary env).1.status = 200 ∨ (getMonthlySummary env).1 =
      ⟨500, msgObj "Hubo un error al obtener el resumen mensual de tickets"⟩) ∧
    ((getByCategory cat env).1.status = 200 ∨ (getByCategory cat env).1 =
      ⟨500, msgObj "Hubo un error al obtener el desglose por categoría"⟩) ∧
    ((getTechnicianPerformance env).1.status = 200 ∨
      (getTechnicianPerformance env).1 =
      ⟨500, msgObj "Hubo un error al obtener el rendimiento de los técnicos"⟩) ∧
    ((getCompanySummary env).1.status = 200 ∨ (getCompanySummary env).1 =
      ⟨500, msgObj "Hubo un error al obtener el resumen por empresa"⟩) ∧
    (getRecentTickets ⟨s, allFail⟩).1 =
      ⟨500, msgObj "Hubo un error al obtener los tickets recientes"⟩ ∧
    (getSummary ⟨s, allFail⟩).1 =
      ⟨500, msgObj "Hubo un error al obtener el resumen de tickets"⟩ ∧
    (getResolutionRate ⟨s, allFail⟩).1 =
      ⟨500, msgObj "Hubo un error al obtener la tasa de resolución"⟩ ∧
    (getMonthlySummary ⟨s, allFail⟩).1 =
      ⟨500, msgObj "Hubo un error al obtener el resumen mensual de tickets"⟩ ∧
    (getByCategory cat ⟨s, allFail⟩).1 =
      ⟨500, msgObj "Hubo un error al obtener el desglose por categoría"⟩ ∧
    (getTechnicianPerformance ⟨s, allFail⟩).1 =
      ⟨500, msgObj "Hubo un error al obtener el rendimiento de los técnicos"⟩ ∧
    (getCompanySummary ⟨s, allFail⟩).1 =
      ⟨500, msgObj "Hubo un error al obtener el resumen por empresa"⟩ := by
  refine ⟨?_, ?_, ?_, ?_, ?_, ?_, ?_, rfl, rfl, rfl, rfl, rfl, rfl, rfl⟩
  · rcases h : getRecentTicketsM env 0 with ⟨_ | ts, n⟩ <;>
      simp [getRecentTickets, h]
  · rcases h : getSummaryM env 0 with ⟨_ | ⟨t, p, c⟩, n⟩ <;>
      simp [getSummary, h]
  · rcases h : getResolutionRateM env 0 with ⟨_ | ⟨t, c⟩, n⟩ <;>
      simp [getResolutionRate, h]
  · rcases h : getMonthlySummaryM env 0 with ⟨_ | rows, n⟩ <;>
      simp [getMonthlySummary, h]
  · rcases h : getByCategoryM cat env 0 with ⟨_ | (_ | es), n⟩ <;>
      simp [getByCategory, h]
  · rcases h : getTechnicianPerformanceM env 0 with ⟨_ | es, n⟩ <;>
      simp [getTechnicianPerformance, h]
  · rcases h : getCompanySummaryM env 0 with ⟨_ | es, n⟩ <;>
      simp [getCompanySummary, h]

/-- C6 (confirmed): with more than 5 tickets in the store, the
recent-tickets aggregation returns 200 with exactly 5 serialized
tickets, pairwise ordered by creation timestamp descending, whose first
element is at least as recent as every ticket of the store, and every
returned ticket is a store ticket (no filtering). -/
theorem recent_tickets_top5 (s : Store) (hlen : 5 < s.tickets.length) :
    ∃ L : List Ticket,
      getRecentTickets ⟨s, noFail⟩ = (⟨200, .arr (L.map ticketToJ)⟩, 1) ∧
      L.length = 5 ∧
      List.Pairwise (fun a b => DateTime.leb b.createdAt a.createdAt) L ∧
      (∃ h₀ rest, L = h₀ :: rest ∧
        ∀ t ∈ s.tickets, DateTime.leb t.createdAt h₀.createdAt) ∧
      (∀ t ∈ L, t ∈ s.tickets) := by
  have htrans : ∀ a b c : Ticket,
      (fun a b : Ticket => DateTime.leb b.createdAt a.createdAt) a b →
      (fun a b : Ticket => DateTime.leb b.createdAt a.createdAt) b c →
      (fun a b : Ticket => DateTime.leb b.createdAt a.createdAt) a c :=
    fun _ _ _ hab hbc => DateTime.leb_trans _ _ _ hbc hab
  have htot : ∀ a b : Ticket,
      ((fun a b : Ticket => DateTime.leb b.createdAt a.createdAt) a b ||
       (fun a b : Ticket => DateTime.leb b.createdAt a.createdAt) b a) :=
    fun _ _ => DateTime.leb_total _ _
  have hsorted := List.sorted_mergeSort htrans htot s.tickets
  refine ⟨recentFive s, rfl, ?_, ?_, ?_, ?_⟩
  · simp only [recentFive, List.length_take, List.length_mergeSort]
    exact Nat.min_eq_left (by omega)
  · exact List.Pairwise.sublist (List.take_sublist 5 _) hsorted
  · rcases hms : s.tickets.mergeSort
        (fun a b => DateTime.leb b.createdAt a.createdAt) with _ | ⟨h₀, rest⟩
    · have h0 := congrArg List.length hms
      rw [List.length_mergeSort, List.length_nil] at h0
      omega
    · refine ⟨h₀, rest.take 4, ?_, ?_⟩
      · simp [recentFive, hms]
      · intro t ht
        have htm : t ∈ s.tickets.mergeSort
            (fun a b => DateTime.leb b.createdAt a.createdAt) :=
          List.mem_mergeSort.mpr ht
        rw [hms] at htm
        rcases List.mem_cons.mp htm with h | h
        · rw [h]; exact DateTime.leb_refl _
        · rw [hms] at hsorted
          exact (List.pairwise_cons.mp hsorted).1 t h
  · intro t ht
    exact List.mem_mergeSort.mp (List.mem_of_mem_take ht)

/-- C6 witness: the six-ticket store yields the guaranteed shape. -/
theorem recent_tickets_top5_witness :
    5 < sixStore.tickets.length ∧
    ∃ L : List Ticket,
      getRecentTickets ⟨sixStore, noFail⟩ = (⟨200, .arr (L.map ticketToJ)⟩, 1) ∧
      L.length = 5 ∧
      List.Pairwise (fun a b => DateTime.leb b.createdAt a.createdAt) L ∧
      (∃ h₀ rest, L = h₀ :: rest ∧
        ∀ t ∈ sixStore.tickets, DateTime.leb t.createdAt h₀.createdAt) ∧
      (∀ t ∈ L, t ∈ sixStore.tickets) :=
  ⟨by decide, recent_tickets_top5 sixStore (by decide)⟩

/-- On a healthy store the technician loop resolves every group row. -/
theorem techLoop_noFail (s : Store) :
    ∀ (rows : List (Nat × Nat)) (n : Nat), ∃ k,
      techLoop rows ⟨s, noFail⟩ n = (some (rows.map (techResolve s)), k) := by
  intro rows
  induction rows with
  | nil => exact fun n => ⟨n, rfl⟩
  | cons r rs ih =>
    intro n
    rcases hfp : findPerson s r.1 with _ | u
    · obtain ⟨k, hk⟩ := ih (n + 1)
      refine ⟨k, ?_⟩
      simp [techLoop, DbM.bind_def, hfp, hk, DbM.pure_def, techResolve]
    · obtain ⟨k, hk⟩ := ih (n + 3)
      refine ⟨k, ?_⟩
      simp [techLoop, DbM.bind_def, hfp, hk, DbM.pure_def, techResolve]

/-- `getTechnicianPerformance` on a healthy store: 200 with the
resolved, null-filtered groups. -/
theorem getTechnicianPerformance_noFail (s : Store) : ∃ k,
    getTechnicianPerformance ⟨s, noFail⟩ =
      (⟨200, .arr (((techUidRows s).filterMap (techResolve s)).map techToJ)⟩, k) := by
  obtain ⟨k, hk⟩ := techLoop_noFail s (techUidRows s) 1
  refine ⟨k, ?_⟩
  unfold getTechnicianPerformance getTechnicianPerformanceM
  simp only [DbM.bind_def, query_noFail]
  rw [show (userGroupRows s).filterMap
      (fun r => match r.1 with | none => none | some u => some (u, r.2)) =
      techUidRows s from rfl, hk]
  simp [List.filterMap_map]

/-- The non-null group rows, expressed over the distinct userId list. -/
theorem techUidRows_eq (s : Store) :
    techUidRows s = (s.tickets.map (fun t => t.userId)).dedup.filterMap
      (fun ou => match ou with
        | none => none
        | some u =>
          some (u, (s.tickets.filter (fun t => t.userId = some u)).length)) := by
  unfold techUidRows userGroupRows
  rw [List.filterMap_map]
  apply List.filterMap_congr
  intro ou _
  cases ou <;> rfl

/-- Resolving the non-null group rows yields exactly one entry per
resolvable distinct assignee, with the spec's name and counts. -/
theorem tech_groups_forall2 (s : Store) (D : List (Option Nat)) :
    List.Forall₂
      (fun (u : Nat) (e : TechEntry) => ∃ p, findPerson s u = some p ∧
        e.name = p.firstName ++ " " ++ p.lastName ∧
        e.total = (s.tickets.filter (fun t => t.userId = some u)).length ∧
        e.completed = countTech s u Status.Closed ∧
        e.pending = countTech s u Status.Open)
      ((D.filterMap id).filter (fun u => (findPerson s u).isSome))
      ((D.filterMap (fun ou => match ou with
          | none => none
          | some u =>
            some (u, (s.tickets.filter (fun t => t.userId = some u)).length))).filterMap
        (techResolve s)) := by
  induction D with
  | nil => exact List.Forall₂.nil
  | cons ou D ih =>
    cases ou with
    | none => simpa using ih
    | some u =>
      rcases hfp : findPerson s u with _ | p
      · simpa [List.filterMap_cons, List.filter_cons, hfp, techResolve] using ih
      · have hred : techResolve s
            (u, (s.tickets.filter (fun t => t.userId = some u)).length) =
            some ⟨p.firstName ++ " " ++ p.lastName,
              (s.tickets.filter (fun t => t.userId = some u)).length,
              countTech s u Status.Closed, countTech s u Status.Open⟩ := by
          simp [techResolve, hfp]
        simp only [List.filterMap_cons, List.filter_cons, hfp, Option.isSome_some,
          if_true, hred, id_eq]
        refine List.Forall₂.cons ?_ ih
        exact ⟨p, hfp, rfl, rfl, rfl, rfl⟩

/-- C4 (confirmed): the technician-performance aggregation returns 200
with one `{ name, total, completed, pending }` group per distinct
non-null assignee whose Person record resolves — tickets with
`userId = null` never contribute a group, an unresolvable assignee's
group is entirely absent, and each retained group carries the
`"<first> <last>"` name and the Closed/Open counts of that assignee. -/
theorem technician_performance_groups (s : Store) :
    ∃ (L : List TechEntry) (k : Nat),
      getTechnicianPerformance ⟨s, noFail⟩ = (⟨200, .arr (L.map techToJ)⟩, k) ∧
      List.Forall₂
        (fun (u : Nat) (e : TechEntry) => ∃ p, findPerson s u = some p ∧
          e.name = p.firstName ++ " " ++ p.lastName ∧
          e.total = (s.tickets.filter (fun t => t.userId = some u)).length ∧
          e.completed = countTech s u Status.Closed ∧
          e.pending = countTech s u Status.Open)
        (resolvableUids s) L ∧
      (∀ e : TechEntry,
        (techToJ e).keys = ["name", "total", "completed", "pending"]) := by
  obtain ⟨k, hk⟩ := getTechnicianPerformance_noFail s
  refine ⟨(techUidRows s).filterMap (techResolve s), k, hk, ?_, fun e => rfl⟩
  rw [techUidRows_eq]
  exact tech_groups_forall2 s ((s.tickets.map (fun t => t.userId)).dedup)

/-- On a healthy store the company loop resolves every group row. -/
theorem companyLoop_noFail (s : Store) :
    ∀ (rows : List (Nat × Nat)) (n : Nat), ∃ k,
      companyLoop rows ⟨s, noFail⟩ n = (some (rows.map (companyResolve s)), k) := by
  intro rows
  induction rows with
  | nil => exact fun n => ⟨n, rfl⟩
  | cons r rs ih =>
    intro n
    obtain ⟨k, hk⟩ := ih (n + 3)
    refine ⟨k, ?_⟩
    simp [companyLoop, DbM.bind_def, hk, DbM.pure_def, companyResolve]

/-- `getCompanySummary` on a healthy store: 200 with one resolved group
per distinct client. -/
theorem getCompanySummary_noFail (s : Store) : ∃ k,
    getCompanySummary ⟨s, noFail⟩ =
      (⟨200, .arr (((clientGroupRows s).map (companyResolve s)).map companyToJ)⟩,
        k) := by
  obtain ⟨k, hk⟩ := companyLoop_noFail s (clientGroupRows s) 1
  refine ⟨k, ?_⟩
  unfold getCompanySummary getCompanySummaryM
  simp only [DbM.bind_def, query_noFail]
  rw [hk]

/-- C5 (confirmed): the company-summary aggregation returns 200 with
exactly one `{ name, completed, pending }` group per distinct
`clientId`; a client whose Person record does not resolve is kept with
display name `"Unknown"`, and each group's completed/pending fields
count that client's Closed/Open tickets. -/
theorem company_summary_groups (s : Store) :
    ∃ (L : List CompanyEntry) (k : Nat),
      getCompanySummary ⟨s, noFail⟩ = (⟨200, .arr (L.map companyToJ)⟩, k) ∧
      List.Forall₂
        (fun (c : Nat) (e : CompanyEntry) =>
          e.name = (match findPerson s c with
            | some p => p.firstName ++ " " ++ p.lastName
            | none => "Unknown") ∧
          e.completed = countClient s c Status.Closed ∧
          e.pending = countClient s c Status.Open)
        (distinctClientIds s) L ∧
      (∀ e : CompanyEntry,
        (companyToJ e).keys = ["name", "completed", "pending"]) := by
  obtain ⟨k, hk⟩ := getCompanySummary_noFail s
  refine ⟨(clientGroupRows s).map (companyResolve s), k, hk, ?_, fun e => rfl⟩
  unfold clientGroupRows
  rw [List.map_map]
  have : ∀ ids : List Nat, List.Forall₂
      (fun (c : Nat) (e : CompanyEntry) =>
        e.name = (match findPerson s c with
          | some p => p.firstName ++ " " ++ p.lastName
          | none => "Unknown") ∧
        e.completed = countClient s c Status.Closed ∧
        e.pending = countClient s c Status.Open)
      ids (ids.map (companyResolve s ∘
        fun c => (c, (s.tickets.filter (fun t => t.clientId = c)).length))) := by
    intro ids
    induction ids with
    | nil => exact List.Forall₂.nil
    | cons c cs ih => exact List.Forall₂.cons ⟨rfl, rfl, rfl⟩ ih
  exact this (distinctClientIds s)

/-- When every group row's type resolves in the catalog, the decorating
map succeeds and produces one decorated entry per row. -/
theorem mapCategory_some (cat : Catalog) :
    ∀ rows : List (String × Nat),
      (∀ r ∈ rows, (lookupMeta cat r.1).isSome) →
      ∃ es, mapCategory cat rows = some es ∧
        List.Forall₂
          (fun (r : String × Nat) (e : CategoryEntry) =>
            ∃ m, lookupMeta cat r.1 = some m ∧ e.type = m.text ∧
              e._count._all = r.2 ∧ e.color = m.color ∧ e.icon = m.icon)
          rows es := by
  intro rows
  induction rows with
  | nil => exact fun _ => ⟨[], rfl, List.Forall₂.nil⟩
  | cons r rs ih =>
    intro hres
    rcases hm : lookupMeta cat r.1 with _ | m
    · have := hres r (List.mem_cons_self r rs)
      rw [hm] at this
      exact absurd this (by simp)
    · obtain ⟨es, hes, hfa⟩ :=
        ih (fun x hx => hres x (List.mem_cons_of_mem r hx))
      refine ⟨⟨m.text, ⟨r.2⟩, m.color, m.icon⟩ :: es, ?_, ?_⟩
      · simp [mapCategory, hm, hes]
      · refine List.Forall₂.cons ?_ hfa
        exact ⟨m, hm, rfl, rfl, rfl, rfl⟩

/-- A single unresolvable row type makes the decorating map throw. -/
theorem mapCategory_isNone (cat : Catalog) :
    ∀ rows : List (String × Nat),
      (∃ r ∈ rows, lookupMeta cat r.1 = none) →
      mapCategory cat rows = none := by
  intro rows
  induction rows with
  | nil => rintro ⟨r, hr, _⟩; exact absurd hr (List.not_mem_nil r)
  | cons r rs ih =>
    rintro ⟨r', hr', hnone⟩
    rcases List.mem_cons.mp hr' with rfl | hmem
    · simp [mapCategory, hnone]
    · rcases hm : lookupMeta cat r.1 with _ | m
      · simp [mapCategory, hm]
      · simp [mapCategory, hm, ih ⟨r', hmem, hnone⟩]

/-- C2 counterexample: the by-category entry does not have the shape
`{ type, count, color, icon }` — the source passes the groupBy
`_count` object through unflattened, so the serialized keys are
`type, _count, color, icon` (with the count nested as `_count._all`),
and there is no `count` field. -/
theorem by_category_count_key_counterexample :
    getByCategory hwCatalog ⟨hwStore, noFail⟩ =
      (⟨200, .arr [categoryToJ ⟨"Hardware", ⟨1⟩, "red", "cpu"⟩]⟩, 1) ∧
    (categoryToJ ⟨"Hardware", ⟨1⟩, "red", "cpu"⟩).keys =
      ["type", "_count", "color", "icon"] ∧
    (categoryToJ ⟨"Hardware", ⟨1⟩, "red", "cpu"⟩).keys ≠
      ["type", "count", "color", "icon"] :=
  ⟨rfl, rfl, by decide⟩

/-- C2 (amended): when every ticket type present resolves in the
catalog, by-category returns 200 with exactly one entry per distinct
raw type (the distinct-type list has no duplicates), each entry
carrying the catalog's label/color/icon for that type and the count of
tickets of that type — but shaped
`{ type: <label>, _count: { _all: count }, color, icon }` rather than
the claimed `{ type, count, color, icon }`. -/
theorem by_category_groups (cat : Catalog) (s : Store)
    (hres : ∀ t ∈ s.tickets, (lookupMeta cat t.type).isSome) :
    ∃ L : List CategoryEntry,
      getByCategory cat ⟨s, noFail⟩ = (⟨200, .arr (L.map categoryToJ)⟩, 1) ∧
      (distinctTypes s).Nodup ∧
      List.Forall₂
        (fun (ty : String) (e : CategoryEntry) =>
          ∃ m, lookupMeta cat ty = some m ∧ e.type = m.text ∧
            e._count._all = (s.tickets.filter (fun t => t.type = ty)).length ∧
            e.color = m.color ∧ e.icon = m.icon)
        (distinctTypes s) L ∧
      (∀ e : CategoryEntry,
        (categoryToJ e).keys = ["type", "_count", "color", "icon"]) := by
  have hrows : ∀ r ∈ typeGroupRows s, (lookupMeta cat r.1).isSome := by
    intro r hr
    rcases List.mem_map.mp hr with ⟨ty, hty, rfl⟩
    rcases List.mem_map.mp (List.mem_dedup.mp hty) with ⟨t, ht, rfl⟩
    exact hres t ht
  obtain ⟨es, hes, hfa⟩ := mapCategory_some cat (typeGroupRows s) hrows
  refine ⟨es, ?_, List.nodup_dedup _, ?_, fun e => rfl⟩
  · unfold getByCategory getByCategoryM
    simp [DbM.bind_def, query_noFail, DbM.pure_def, hes]
  · have := List.forall₂_map_left_iff.mp (hfa)
    exact this

/-- C2 witness: on the one-ticket hw store with the hw catalog, the
amended property holds. -/
theorem by_category_groups_witness :
    (∀ t ∈ hwStore.tickets, (lookupMeta hwCatalog t.type).isSome) ∧
    ∃ L : List CategoryEntry,
      getByCategory hwCatalog ⟨hwStore, noFail⟩ =
        (⟨200, .arr (L.map categoryToJ)⟩, 1) ∧
      (distinctTypes hwStore).Nodup ∧
      List.Forall₂
        (fun (ty : String) (e : CategoryEntry) =>
          ∃ m, lookupMeta hwCatalog ty = some m ∧ e.type = m.text ∧
            e._count._all =
              (hwStore.tickets.filter (fun t => t.type = ty)).length ∧
            e.color = m.color ∧ e.icon = m.icon)
        (distinctTypes hwStore) L ∧
      (∀ e : CategoryEntry,
        (categoryToJ e).keys = ["type", "_count", "color", "icon"]) :=
  ⟨by decide, by_category_groups hwCatalog hwStore (by decide)⟩

/-- C10 (confirmed): a ticket whose type has no catalog entry makes the
decorating map throw inside the try block, so by-category answers the
same uniform 500 body used for store failures — no distinct
configuration error is surfaced. -/
theorem by_category_missing_type_500 (cat : Catalog) (s : Store)
    (hbad : ∃ t ∈ s.tickets, lookupMeta cat t.type = none) :
    getByCategory cat ⟨s, noFail⟩ =
      (⟨500, msgObj "Hubo un error al obtener el desglose por categoría"⟩, 1) := by
  obtain ⟨t, ht, hnone⟩ := hbad
  have hrow : ∃ r ∈ typeGroupRows s, lookupMeta cat r.1 = none := by
    refine ⟨(t.type, (s.tickets.filter (fun x => x.type = t.type)).length),
      ?_, hnone⟩
    exact List.mem_map.mpr
      ⟨t.type, List.mem_dedup.mpr (List.mem_map.mpr ⟨t, ht, rfl⟩), rfl⟩
  have h := mapCategory_isNone cat (typeGroupRows s) hrow
  unfold getByCategory getByCategoryM
  simp [DbM.bind_def, query_noFail, DbM.pure_def, h]

/-- C10 witness: the store with an un-catalogued "network" ticket gets
the uniform 500 body. -/
theorem by_category_missing_type_500_witness :
    getByCategory hwCatalog ⟨badTypeStore, noFail⟩ =
      (⟨500, msgObj "Hubo un error al obtener el desglose por categoría"⟩, 1) :=
  by_category_missing_type_500 hwCatalog badTypeStore
    ⟨mkTicket 1 Status.Open "network" (mkDate 2024 1 5) none 20,
      by decide, by decide⟩

theorem any_month_iff (acc : List MonthEntry) (m : String) :
    acc.any (fun e => e.month = m) = true ↔ m ∈ accMonths acc := by
  rw [List.any_eq_true]
  unfold accMonths
  rw [List.mem_map]
  constructor
  · rintro ⟨e, he, hd⟩
    exact ⟨e, he, by simpa using hd⟩
  · rintro ⟨e, he, hd⟩
    exact ⟨e, he, by simpa using hd⟩

theorem accMonths_addMonth (acc : List MonthEntry) (m : String) (c : Nat) :
    accMonths (addMonth acc m c) =
      if m ∈ accMonths acc then accMonths acc else accMonths acc ++ [m] := by
  unfold addMonth
  by_cases h : acc.any (fun e => e.month = m) = true
  · rw [if_pos h, if_pos ((any_month_iff acc m).mp h)]
    unfold accMonths
    rw [List.map_map]
    apply List.map_congr_left
    intro e _
    by_cases he : e.month = m <;> simp [he]
  · rw [if_neg h, if_neg (fun hm => h ((any_month_iff acc m).mpr hm))]
    simp [accMonths]

theorem nodup_accMonths_addMonth (acc : List MonthEntry) (m : String) (c : Nat)
    (hnd : (accMonths acc).Nodup) : (accMonths (addMonth acc m c)).Nodup := by
  rw [accMonths_addMonth]
  by_cases hm : m ∈ accMonths acc
  · rwa [if_pos hm]
  · rw [if_neg hm]
    exact List.Nodup.append hnd (List.nodup_singleton m)
      (fun x hx hx' => hm ((List.mem_singleton.mp hx') ▸ hx))

theorem mem_accMonths_addMonth (acc : List MonthEntry) (m m' : String) (c : Nat) :
    m' ∈ accMonths (addMonth acc m c) ↔ m' ∈ accMonths acc ∨ m' = m := by
  rw [accMonths_addMonth]
  by_cases hm : m ∈ accMonths acc
  · rw [if_pos hm]
    exact ⟨Or.inl, fun h => h.elim id (fun e => e ▸ hm)⟩
  · rw [if_neg hm]
    simp

theorem filter_month_nil (acc : List MonthEntry) (m : String)
    (hm : m ∉ accMonths acc) : acc.filter (fun e => e.month = m) = [] := by
  induction acc with
  | nil => rfl
  | cons a t ih =>
    have h1 : ¬(a.month = m) := by
      intro h
      exact hm (by simp [accMonths, h])
    have h2 : m ∉ accMonths t := by
      intro h
      exact hm (by simp [accMonths] at h ⊢; exact Or.inr h)
    simp [List.filter_cons, h1, ih h2]

theorem filter_month_single (acc : List MonthEntry) (e : MonthEntry)
    (hnd : (accMonths acc).Nodup) (he : e ∈ acc) :
    acc.filter (fun x => x.month = e.month) = [e] := by
  induction acc with
  | nil => exact absurd he (List.not_mem_nil e)
  | cons a t ih =>
    have hnd' : (accMonths t).Nodup := by
      simp [accMonths] at hnd
      exact hnd.2
    have hanotin : a.month ∉ accMonths t := by
      simp [accMonths] at hnd ⊢
      exact hnd.1
    rcases List.mem_cons.mp he with rfl | hmem
    · simp only [List.filter_cons, decide_eq_true_eq, if_pos rfl]
      rw [filter_month_nil t e.month hanotin]
      simp
    · have hne : ¬(a.month = e.month) := by
        intro h
        exact hanotin (h ▸ (by simp [accMonths]; exact ⟨e, hmem, rfl⟩))
      simp only [List.filter_cons, decide_eq_true_eq, if_neg hne]
      exact ih hnd' hmem

theorem accTickets_addMonth (acc : List MonthEntry) (m m' : String) (c : Nat)
    (hnd : (accMonths acc).Nodup) :
    accTickets (addMonth acc m c) m' =
      accTickets acc m' + (if m = m' then c else 0) := by
  unfold addMonth
  by_cases h : acc.any (fun e => e.month = m) = true
  · have hm : m ∈ accMonths acc := (any_month_iff acc m).mp h
    rw [if_pos h]
    unfold accTickets
    rw [List.filter_map]
    have hfc : (acc.filter ((fun x => decide (x.month = m')) ∘
        (fun e => if e.month = m then MonthEntry.mk e.month (e.tickets + c)
          else e))) = acc.filter (fun x => x.month = m') := by
      apply List.filter_congr
      intro e _
      by_cases he : e.month = m <;> simp [he]
    rw [hfc]
    by_cases hmm : m = m'
    · subst hmm
      obtain ⟨e₀, hfil⟩ : ∃ e₀, acc.filter (fun x => x.month = m) = [e₀] := by
        rcases List.mem_map.mp hm with ⟨e₀, he₀, hme⟩
        exact ⟨e₀, hme ▸ filter_month_single acc e₀ hnd he₀⟩
      have he₀m : e₀.month = m := by
        have : e₀ ∈ acc.filter (fun x => x.month = m) := by
          rw [hfil]; exact List.mem_singleton.mpr rfl
        simpa using (List.mem_filter.mp this).2
      rw [hfil]
      simp [he₀m]
    · rw [if_neg hmm]
      have : ∀ e ∈ acc.filter (fun x => x.month = m'),
          (if e.month = m then MonthEntry.mk e.month (e.tickets + c)
            else e) = e := by
        intro e he
        have hem : e.month = m' := by
          simpa using (List.mem_filter.mp he).2
        have hne : ¬(e.month = m) := fun hc => hmm (hc ▸ hem)
        rw [if_neg hne]
      rw [List.map_congr_left this]
      simp
  · have hm : m ∉ accMonths acc := fun hmm => h ((any_month_iff acc m).mpr hmm)
    rw [if_neg h]
    unfold accTickets
    rw [List.filter_append]
    by_cases hmm : m = m'
    · subst hmm
      rw [filter_month_nil acc m hm]
      simp
    · simp [List.filter_cons, hmm]

/-- Invariant of the month-bucketing reduce: it keeps the month keys
duplicate-free, reaches exactly the months of the processed rows, and
accumulates exactly the per-month sum of the row counts. -/
theorem monthlyFold_inv :
    ∀ (rows : List (DateTime × Nat)) (acc : List MonthEntry),
      (accMonths acc).Nodup →
      (accMonths (rows.foldl
        (fun a r => addMonth a (monthKey r.1) r.2) acc)).Nodup ∧
      (∀ m, m ∈ accMonths (rows.foldl
          (fun a r => addMonth a (monthKey r.1) r.2) acc) ↔
        m ∈ accMonths acc ∨ ∃ r ∈ rows, monthKey r.1 = m) ∧
      (∀ m, accTickets (rows.foldl
          (fun a r => addMonth a (monthKey r.1) r.2) acc) m =
        accTickets acc m + sumFor rows m) := by
  intro rows
  induction rows with
  | nil =>
    intro acc hnd
    exact ⟨hnd, fun m => by simp, fun m => by simp [sumFor]⟩
  | cons r rs ih =>
    intro acc hnd
    have hnd' := nodup_accMonths_addMonth acc (monthKey r.1) r.2 hnd
    obtain ⟨h1, h2, h3⟩ := ih (addMonth acc (monthKey r.1) r.2) hnd'
    simp only [List.foldl_cons]
    refine ⟨h1, fun m => ?_, fun m => ?_⟩
    · rw [h2 m, mem_accMonths_addMonth]
      constructor
      · rintro ((h | h) | h)
        · exact Or.inl h
        · exact Or.inr ⟨r, List.mem_cons_self r rs, h.symm⟩
        · rcases h with ⟨r', hr', hm⟩
          exact Or.inr ⟨r', List.mem_cons_of_mem r hr', hm⟩
      · rintro (h | ⟨r', hr', hm⟩)
        · exact Or.inl (Or.inl h)
        · rcases List.mem_cons.mp hr' with rfl | hmem
          · exact Or.inl (Or.inr hm.symm)
          · exact Or.inr ⟨r', hmem, hm⟩
    · rw [h3 m, accTickets_addMonth acc (monthKey r.1) m r.2 hnd]
      have hs : sumFor (r :: rs) m =
          (if monthKey r.1 = m then r.2 else 0) + sumFor rs m := by
        unfold sumFor
        by_cases hc : monthKey r.1 = m <;> simp [List.filter_cons, hc]
      rw [hs]
      omega

/-- Counting tickets fiberwise over their distinct creation timestamps
and summing the fibers of one month counts that month's tickets. -/
theorem fiber_count (m : String) :
    ∀ (K : List DateTime) (l : List Ticket), K.Nodup →
      (∀ t ∈ l, t.createdAt ∈ K) →
      ((K.filter (fun d => monthKey d = m)).map
        (fun d => (l.filter (fun t => t.createdAt = d)).length)).sum =
      (l.filter (fun t => monthKey t.createdAt = m)).length := by
  intro K
  induction K with
  | nil =>
    intro l _ hl
    have : l = [] := List.eq_nil_iff_forall_not_mem.mpr
      (fun t ht => absurd (hl t ht) (List.not_mem_nil _))
    subst this
    simp
  | cons d K ih =>
    intro l hnd hl
    have hndK : K.Nodup := (List.nodup_cons.mp hnd).2
    have hdK : d ∉ K := (List.nodup_cons.mp hnd).1
    have hl₂ : ∀ t ∈ l.filter (fun t => !decide (t.createdAt = d)),
        t.createdAt ∈ K := by
      intro t ht
      have h1 := (List.mem_filter.mp ht).1
      have h2 := (List.mem_filter.mp ht).2
      simp only [Bool.not_eq_eq_eq_not, Bool.not_true, decide_eq_false_iff_not] at h2
      rcases List.mem_cons.mp (hl t h1) with h | h
      · exact absurd h h2
      · exact h
    have hIH := ih (l.filter (fun t => !decide (t.createdAt = d))) hndK hl₂
    have htail : ((K.filter (fun d' => monthKey d' = m)).map
        (fun d' => (l.filter (fun t => t.createdAt = d')).length)).sum =
        ((K.filter (fun d' => monthKey d' = m)).map
          (fun d' => ((l.filter (fun t => !decide (t.createdAt = d))).filter
            (fun t => t.createdAt = d')).length)).sum := by
      apply congrArg
      apply List.map_congr_left
      intro d' hd'
      have hd'K : d' ∈ K := List.mem_of_mem_filter hd'
      have hdd' : d' ≠ d := fun h => hdK (h ▸ hd'K)
      apply congrArg
      rw [List.filter_filter]
      apply List.filter_congr
      intro t _
      by_cases hc : t.createdAt = d'
      · have hnd2 : ¬(t.createdAt = d) := fun h => hdd' (hc ▸ h ▸ rfl)
        simp [hc, hnd2, hdd']
      · simp [hc]
    have hsplit := List.countP_eq_countP_filter_add l
      (fun t => monthKey t.createdAt = m) (fun t => t.createdAt = d)
    rw [List.countP_eq_length_filter, List.countP_eq_length_filter,
      List.countP_eq_length_filter] at hsplit
    by_cases hdm : monthKey d = m
    · have hhead : ((l.filter (fun t => decide (t.createdAt = d))).filter
          (fun t => monthKey t.createdAt = m)).length =
          (l.filter (fun t => t.createdAt = d)).length := by
        apply congrArg
        rw [List.filter_filter]
        apply List.filter_congr
        intro t _
        by_cases hc : t.createdAt = d
        · simp [hc, hdm]
        · simp [hc]
      have hfc2 : List.filter (fun d' => decide (monthKey d' = m)) (d :: K) =
          d :: List.filter (fun d' => decide (monthKey d' = m)) K := by
        simp [List.filter_cons, hdm]
      rw [hfc2, List.map_cons, List.sum_cons, htail, hIH, hsplit, ← hhead]
    · simp only [List.filter_cons]
      rw [if_neg (by simpa using hdm)]
      have hhead0 : ((l.filter (fun t => decide (t.createdAt = d))).filter
          (fun t => monthKey t.createdAt = m)).length = 0 := by
        rw [List.length_eq_zero, List.filter_eq_nil_iff]
        intro t ht
        have := (List.mem_filter.mp ht).2
        simp only [decide_eq_true_eq] at this
        simp [this, hdm]
      rw [htail, hIH, hsplit, hhead0]
      simp

/-- The per-month sum over the groupBy rows is the per-month ticket
count. -/
theorem sumFor_dateGroupRows (s : Store) (m : String) :
    sumFor (dateGroupRows s) m =
      (s.tickets.filter (fun t => monthKey t.createdAt = m)).length := by
  unfold sumFor dateGroupRows
  rw [List.filter_map, List.map_map]
  have hres := fiber_count m
    ((s.tickets.map (fun t => t.createdAt)).dedup.mergeSort DateTime.leb)
    s.tickets
    (((List.mergeSort_perm _ _).nodup_iff).mpr (List.nodup_dedup _))
    (fun t ht => List.mem_mergeSort.mpr
      (List.mem_dedup.mpr (List.mem_map.mpr ⟨t, ht, rfl⟩)))
  exact hres

/-- A month is reached by some groupBy row iff some ticket was created
in it. -/
theorem rows_month_iff (s : Store) (m : String) :
    (∃ r ∈ dateGroupRows s, monthKey r.1 = m) ↔
      ∃ t ∈ s.tickets, monthKey t.createdAt = m := by
  constructor
  · rintro ⟨r, hr, hm⟩
    rcases List.mem_map.mp hr with ⟨d, hd, rfl⟩
    rcases List.mem_map.mp (List.mem_dedup.mp (List.mem_mergeSort.mp hd)) with
      ⟨t, ht, rfl⟩
    exact ⟨t, ht, hm⟩
  · rintro ⟨t, ht, hm⟩
    refine ⟨(t.createdAt,
      (s.tickets.filter (fun x => x.createdAt = t.createdAt)).length), ?_, hm⟩
    exact List.mem_map.mpr ⟨t.createdAt, List.mem_mergeSort.mpr
      (List.mem_dedup.mpr (List.mem_map.mpr ⟨t, ht, rfl⟩)), rfl⟩

/-- C3 (confirmed): the monthly summary returns 200 with a list of
`{ month, tickets }` buckets keyed by the `YYYY-MM` (UTC) truncation of
the creation timestamp: months are pairwise distinct, a month appears
iff some ticket was created in it, each bucket's `tickets` equals the
number of tickets created in that month (so same-month tickets from
different days collapse into one bucket), and the month key is exactly
the zero-padded `YYYY-MM` prefix of the ISO timestamp. -/
theorem monthly_summary_buckets (s : Store) :
    ∃ L : List MonthEntry,
      getMonthlySummary ⟨s, noFail⟩ = (⟨200, .arr (L.map monthToJ)⟩, 1) ∧
      (accMonths L).Nodup ∧
      (∀ m, m ∈ accMonths L ↔ ∃ t ∈ s.tickets, monthKey t.createdAt = m) ∧
      (∀ e ∈ L, e.tickets =
        (s.tickets.filter (fun t => monthKey t.createdAt = e.month)).length) ∧
      (∀ d : DateTime, monthKey d = pad4 d.year ++ "-" ++ pad2 d.month) := by
  obtain ⟨hnd, hmem, htk⟩ :=
    monthlyFold_inv (dateGroupRows s) [] (by simp [accMonths])
  refine ⟨monthlyFold (dateGroupRows s), rfl, hnd, ?_, ?_, fun d => rfl⟩
  · intro m
    unfold monthlyFold
    rw [hmem m]
    simp only [accMonths, List.map_nil, List.not_mem_nil, false_or]
    exact rows_month_iff s m
  · intro e he
    have hsingle := filter_month_single (monthlyFold (dateGroupRows s)) e hnd he
    have hacc : accTickets (monthlyFold (dateGroupRows s)) e.month =
        e.tickets := by
      unfold accTickets
      rw [hsingle]
      simp
    have h2 := htk e.month
    rw [← sumFor_dateGroupRows s e.month]
    have hzero : accTickets [] e.month = 0 := rfl
    unfold monthlyFold at hacc
    omega

/-- C3 witness: on the two-ticket store (both tickets created in
January 2024 on different days) the summary has a `"2024-01"` bucket
and every bucket counts its month's tickets. -/
theorem monthly_summary_buckets_witness :
    ∃ L : List MonthEntry,
      getMonthlySummary ⟨twoStore, noFail⟩ = (⟨200, .arr (L.map monthToJ)⟩, 1) ∧
      "2024-01" ∈ accMonths L ∧
      (∀ e ∈ L, e.tickets =
        (twoStore.tickets.filter
          (fun t => monthKey t.createdAt = e.month)).length) := by
  obtain ⟨L, h1, _, h3, h4, _⟩ := monthly_summary_buckets twoStore
  exact ⟨L, h1, (h3 "2024-01").mpr
    ⟨mkTicket 1 Status.Open "hw" (mkDate 2024 1 5) (some 10) 20,
      by decide, by decide⟩, h4⟩

end TicketAnalytics
